import Mathlib

/-!
Shallow embedding of the RBAC management dashboard.

The repository is a React dashboard over a Supabase (PostgreSQL) store:
* the SQL migration (src/unnamed/part_000) defines the tables
  `permissions`, `roles`, `role_permissions`, `user_roles` (with
  `ON DELETE CASCADE` foreign keys and composite primary keys on the
  junction tables) and the unique constraints on `name`;
* `PermissionsManager.tsx` fetches/creates/updates/deletes permissions;
* src/unnamed/part_001 holds `RolesManager` (same shape for roles) and
  `RolePermissionsManager` (the assignment screen: composite fetch,
  role selection seeding a pending checkbox list, a delete-then-insert
  bulk replace, and single-pair removal).

Rows are embedded without their timestamp columns (`created_at`,
`updated_at` are never read by the UI logic under verification).
Supabase calls return `{ data, error }`; a call is embedded as a function
of the store, with transport failures injected as an `Option String`
(`some msg` = the call fails with `error.message = msg`) or, for the
fetches whose caught error is reported with a fixed string, as a `Bool`.
Constraint violations (unique name, composite primary key, foreign keys)
are computed from the store contents, following the SQL schema.
-/

structure Permission where
  id : String
  name : String
  description : Option String
deriving DecidableEq

structure Role where
  id : String
  name : String
  description : Option String
deriving DecidableEq

structure RolePermissionRow where
  role_id : String
  permission_id : String
deriving DecidableEq

structure UserRoleRow where
  user_id : String
  role_id : String
deriving DecidableEq

/-- The persisted state: one list per table of the SQL schema
(`profiles` is omitted: no claim touches it). -/
structure Store where
  permissions : List Permission
  roles : List Role
  role_permissions : List RolePermissionRow
  user_roles : List UserRoleRow
deriving DecidableEq

/-- Referential integrity of the junction table, as enforced by the
foreign keys of `role_permissions` in the SQL schema. -/
def Store.WF (st : Store) : Prop :=
  ∀ rp ∈ st.role_permissions,
    (∃ ro ∈ st.roles, ro.id = rp.role_id) ∧
    (∃ p ∈ st.permissions, p.id = rp.permission_id)

instance (st : Store) : Decidable st.WF := by
  unfold Store.WF; infer_instance

/-- A toast notification: the code emits `{ title, description }` plus
`variant: 'destructive'` for errors (no variant field for successes). -/
structure Toast where
  title : String
  description : String
  variant : Option String
deriving DecidableEq

def errorToast (d : String) : Toast := ⟨"Error", d, some "destructive"⟩

def successToast (d : String) : Toast := ⟨"Success", d, none⟩

/-! ### Store operations (PostgreSQL semantics of the schema) -/

/-- INSERT INTO permissions: `name` is UNIQUE NOT NULL, `id` is the
primary key; on violation the statement fails and nothing changes. -/
def Store.insertPermission (st : Store) (p : Permission) : Except String Store :=
  if ∃ q ∈ st.permissions, q.name = p.name then
    .error "duplicate key value violates unique constraint permissions_name_key"
  else if ∃ q ∈ st.permissions, q.id = p.id then
    .error "duplicate key value violates unique constraint permissions_pkey"
  else
    .ok { st with permissions := st.permissions ++ [p] }

/-- UPDATE permissions SET name, description WHERE id = pid. Zero rows
affected is not an error; renaming onto another row's name violates the
unique constraint. -/
def Store.updatePermission (st : Store) (pid nm : String) (descr : Option String) :
    Except String Store :=
  if ∃ q ∈ st.permissions, q.name = nm ∧ q.id ≠ pid then
    .error "duplicate key value violates unique constraint permissions_name_key"
  else
    let updated := st.permissions.map
      (fun q => if q.id = pid then { q with name := nm, description := descr } else q)
    .ok { st with permissions := updated }

/-- DELETE FROM permissions WHERE id = pid; the
`role_permissions.permission_id` foreign key cascades. -/
def Store.deletePermission (st : Store) (pid : String) : Store :=
  { st with
    permissions := st.permissions.filter (fun p => p.id ≠ pid),
    role_permissions := st.role_permissions.filter (fun rp => rp.permission_id ≠ pid) }

/-- DELETE FROM roles WHERE id = rid; the `role_permissions.role_id` and
`user_roles.role_id` foreign keys cascade. -/
def Store.deleteRole (st : Store) (rid : String) : Store :=
  { st with
    roles := st.roles.filter (fun r => r.id ≠ rid),
    role_permissions := st.role_permissions.filter (fun rp => rp.role_id ≠ rid),
    user_roles := st.user_roles.filter (fun ur => ur.role_id ≠ rid) }

/-- Multi-row INSERT INTO role_permissions: both foreign keys and the
composite primary key `(role_id, permission_id)` are checked; any
violation (including two identical rows inside the same statement)
fails the whole statement and nothing changes. -/
def Store.insertRolePermissions (st : Store) (rows : List RolePermissionRow) :
    Except String Store :=
  if ¬ (∀ row ∈ rows, ∃ ro ∈ st.roles, ro.id = row.role_id) then
    .error "insert on table role_permissions violates foreign key constraint role_permissions_role_id_fkey"
  else if ¬ (∀ row ∈ rows, ∃ p ∈ st.permissions, p.id = row.permission_id) then
    .error "insert on table role_permissions violates foreign key constraint role_permissions_permission_id_fkey"
  else if ¬ (rows.Nodup ∧ ∀ row ∈ rows, row ∉ st.role_permissions) then
    .error "duplicate key value violates unique constraint role_permissions_pkey"
  else
    .ok { st with role_permissions := st.role_permissions ++ rows }

/-- DELETE FROM role_permissions WHERE role_id = rid. -/
def Store.deleteRolePermissionsByRole (st : Store) (rid : String) : Store :=
  { st with role_permissions := st.role_permissions.filter (fun rp => rp.role_id ≠ rid) }

/-- DELETE FROM role_permissions WHERE role_id = rid AND permission_id = pid. -/
def Store.deleteRolePermission (st : Store) (rid pid : String) : Store :=
  let kept := st.role_permissions.filter
    (fun rp => ¬ (rp.role_id = rid ∧ rp.permission_id = pid))
  { st with role_permissions := kept }

/-- Lexicographic comparison of character lists by code point, the
total order on strings under which the store's ORDER BY sorts. -/
def charListLe : List Char → List Char → Bool
  | [], _ => true
  | _ :: _, [] => false
  | a :: as, b :: bs =>
      if a.toNat < b.toNat then true
      else if b.toNat < a.toNat then false
      else charListLe as bs

/-- The string order used by the store's `.order('name')`. -/
def strLe (a b : String) : Bool := charListLe a.toList b.toList

/-- Name order on permission rows. -/
def permNameLe (a b : Permission) : Prop := strLe a.name b.name = true

instance : DecidableRel permNameLe := fun a b => by
  unfold permNameLe; infer_instance

/-- Name order on role rows. -/
def roleNameLe (a b : Role) : Prop := strLe a.name b.name = true

instance : DecidableRel roleNameLe := fun a b => by
  unfold roleNameLe; infer_instance

/-- `.order('name')` on a permissions select. -/
def sortPermissionsByName (l : List Permission) : List Permission :=
  l.insertionSort permNameLe

/-- `.order('name')` on a roles select. -/
def sortRolesByName (l : List Role) : List Role :=
  l.insertionSort roleNameLe

/-! ### PermissionsManager.tsx -/

namespace PermissionsManager

/-- The component state of `PermissionsManager` (the `useState` hooks). -/
structure State where
  permissions : List Permission
  loading : Bool
  isDialogOpen : Bool
  editingPermission : Option Permission
deriving DecidableEq

/-- Initial component state. -/
def State.init : State := ⟨[], true, false, none⟩

/-- `fetchPermissions`: select all permissions ordered by name; a caught
error only emits the fixed toast, leaving `permissions` as it was. -/
def fetchPermissions (s : State) (st : Store) (fail : Bool) : State × Option Toast :=
  if fail then
    ({ s with loading := false }, some (errorToast "Failed to fetch permissions"))
  else
    ({ s with permissions := sortPermissionsByName st.permissions, loading := false }, none)

/-- `handleSubmit`: update branch when `editingPermission` is set,
insert branch otherwise; on success the dialog closes, editing state is
cleared and `fetchPermissions` runs. `freshId` is the id the store would
generate (`gen_random_uuid()`), `netErr` injects a transport failure of
the mutation, `rfFail` one of the refetch. -/
def handleSubmit (s : State) (st : Store) (nm : String) (descr : Option String)
    (freshId : String) (netErr : Option String) (rfFail : Bool) :
    State × Store × List Toast :=
  match s.editingPermission with
  | some editing =>
      match (match netErr with
             | some e => Except.error e
             | none => st.updatePermission editing.id nm descr) with
      | .error msg => (s, st, [errorToast msg])
      | .ok st1 =>
          let s1 := { s with isDialogOpen := false, editingPermission := none }
          let fp := fetchPermissions s1 st1 rfFail
          (fp.1, st1, successToast "Permission updated successfully" :: fp.2.toList)
  | none =>
      match (match netErr with
             | some e => Except.error e
             | none => st.insertPermission ⟨freshId, nm, descr⟩) with
      | .error msg => (s, st, [errorToast msg])
      | .ok st1 =>
          let s1 := { s with isDialogOpen := false, editingPermission := none }
          let fp := fetchPermissions s1 st1 rfFail
          (fp.1, st1, successToast "Permission created successfully" :: fp.2.toList)

/-- `handleDelete`: gated by `confirm(...)`; on success refetches. -/
def handleDelete (s : State) (st : Store) (pid : String) (confirmed : Bool)
    (netErr : Option String) (rfFail : Bool) : State × Store × List Toast :=
  if ¬ confirmed then (s, st, [])
  else
    match (match netErr with
           | some e => Except.error e
           | none => Except.ok (st.deletePermission pid)) with
    | .error msg => (s, st, [errorToast msg])
    | .ok st1 =>
        let fp := fetchPermissions s st1 rfFail
        (fp.1, st1, successToast "Permission deleted successfully" :: fp.2.toList)

end PermissionsManager

/-! ### RolesManager (src/unnamed/part_001, first component) -/

namespace RolesManager

/-- The component state of `RolesManager`. -/
structure State where
  roles : List Role
  loading : Bool
  isDialogOpen : Bool
  editingRole : Option Role
deriving DecidableEq

/-- Initial component state. -/
def State.init : State := ⟨[], true, false, none⟩

/-- `fetchRoles`: select all roles ordered by name. -/
def fetchRoles (s : State) (st : Store) (fail : Bool) : State × Option Toast :=
  if fail then
    ({ s with loading := false }, some (errorToast "Failed to fetch roles"))
  else
    ({ s with roles := sortRolesByName st.roles, loading := false }, none)

/-- `handleDelete`: gated by `confirm(...)`; the store delete cascades
per the schema; on success refetches. -/
def handleDelete (s : State) (st : Store) (rid : String) (confirmed : Bool)
    (netErr : Option String) (rfFail : Bool) : State × Store × List Toast :=
  if ¬ confirmed then (s, st, [])
  else
    match (match netErr with
           | some e => Except.error e
           | none => Except.ok (st.deleteRole rid)) with
    | .error msg => (s, st, [errorToast msg])
    | .ok st1 =>
        let fr := fetchRoles s st1 rfFail
        (fr.1, st1, successToast "Role deleted successfully" :: fr.2.toList)

end RolesManager

/-! ### RolePermissionsManager (src/unnamed/part_001, second component) -/

namespace RolePermissionsManager

/-- One row of the junction fetch
`role_permissions.select(role_id, permission_id, roles!inner(name), permissions!inner(name))`,
with the two joined names flattened. -/
structure RPView where
  role_id : String
  permission_id : String
  roleName : String
  permName : String
deriving DecidableEq

/-- The component state of `RolePermissionsManager`. -/
structure State where
  roles : List Role
  permissions : List Permission
  rolePermissions : List RPView
  selectedRole : String
  selectedPermissions : List String
  loading : Bool
  isDialogOpen : Bool
deriving DecidableEq

/-- Initial component state. -/
def State.init : State := ⟨[], [], [], "", [], true, false⟩

/-- The joined row the junction select produces for one
`role_permissions` row: present exactly when both parents exist
(`!inner` join semantics). -/
def viewOf (st : Store) (rp : RolePermissionRow) : Option RPView :=
  match st.roles.find? (fun r => r.id = rp.role_id),
        st.permissions.find? (fun p => p.id = rp.permission_id) with
  | some r, some p => some ⟨rp.role_id, rp.permission_id, r.name, p.name⟩
  | _, _ => none

/-- The junction select with its two `!inner` joins. -/
def junctionView (st : Store) : List RPView :=
  st.role_permissions.filterMap (viewOf st)

/-- `fetchData`: the composite fetch (roles, permissions, junction) —
an error in any sub-result is thrown before any state is set, so one
failure aborts the whole operation with a single toast. -/
def fetchData (s : State) (st : Store) (fail : Bool) : State × Option Toast :=
  if fail then
    ({ s with loading := false }, some (errorToast "Failed to fetch data"))
  else
    ({ s with roles := sortRolesByName st.roles,
              permissions := sortPermissionsByName st.permissions,
              rolePermissions := junctionView st,
              loading := false }, none)

/-- `getRolePermissions`: pure filter of the in-memory junction list. -/
def getRolePermissions (s : State) (roleId : String) : List RPView :=
  s.rolePermissions.filter (fun rp => rp.role_id = roleId)

/-- `handleRoleSelect`: sets the selected role and seeds the pending
selection with the permission ids currently assigned to it. -/
def handleRoleSelect (s : State) (roleId : String) : State :=
  { s with selectedRole := roleId,
           selectedPermissions := (getRolePermissions s roleId).map (fun rp => rp.permission_id) }

/-- `handlePermissionToggle`: pure update of the pending selection —
checked appends (`[...prev, permissionId]`), unchecked filters out. -/
def handlePermissionToggle (s : State) (permissionId : String) (checked : Bool) : State :=
  if checked then
    { s with selectedPermissions := s.selectedPermissions ++ [permissionId] }
  else
    { s with selectedPermissions := s.selectedPermissions.filter (fun i => i ≠ permissionId) }

/-- The `insertData` array built by `handleAssignPermissions`. -/
def insertData (s : State) : List RolePermissionRow :=
  s.selectedPermissions.map (fun permissionId => ⟨s.selectedRole, permissionId⟩)

/-- The result of a handler run: component state, store, and the toasts
emitted in order. -/
structure Outcome where
  state : State
  store : Store
  toasts : List Toast
deriving DecidableEq

/-- `handleAssignPermissions`: validation guard, then the two-step
replace. The delete's result is not inspected by the source (`await
supabase...delete()...` without destructuring), so `delErr` only
determines whether the rows were actually removed; the insert's error is
checked and surfaced. On success: success toast, dialog closed,
selection cleared, `fetchData`. -/
def handleAssignPermissions (s : State) (st : Store)
    (delErr insErr : Option String) (rfFail : Bool) : Outcome :=
  if s.selectedRole = "" ∨ s.selectedPermissions.length = 0 then
    ⟨s, st, [errorToast "Please select a role and at least one permission"]⟩
  else
    let st1 := match delErr with
      | some _ => st
      | none => st.deleteRolePermissionsByRole s.selectedRole
    match (match insErr with
           | some e => Except.error e
           | none => st1.insertRolePermissions (insertData s)) with
    | .error msg => ⟨s, st1, [errorToast msg]⟩
    | .ok st2 =>
        let s1 := { s with isDialogOpen := false, selectedRole := "", selectedPermissions := [] }
        let fd := fetchData s1 st2 rfFail
        ⟨fd.1, st2, successToast "Permissions assigned successfully" :: fd.2.toList⟩

/-- `handleRemovePermission`: unconditional single-pair delete (no
confirmation step); its error is checked; on success, refetch. -/
def handleRemovePermission (s : State) (st : Store) (roleId permissionId : String)
    (delErr : Option String) (rfFail : Bool) : Outcome :=
  match (match delErr with
         | some e => Except.error e
         | none => Except.ok (st.deleteRolePermission roleId permissionId)) with
  | .error msg => ⟨s, st, [errorToast msg]⟩
  | .ok st1 =>
      let fd := fetchData s st1 rfFail
      ⟨fd.1, st1, successToast "Permission removed successfully" :: fd.2.toList⟩

end RolePermissionsManager

/-! ### Concrete fixtures (drawn from the seed data of the migration) -/

/-- A small store populated in the shape of the seeded schema. -/
def sampleStore : Store :=
  { permissions := [⟨"p1", "read:users", some "Can view user information"⟩,
                    ⟨"p2", "write:users", some "Can create and update users"⟩],
    roles := [⟨"r1", "Administrator", some "Full system access"⟩,
              ⟨"r2", "Viewer", some "Read-only access"⟩],
    role_permissions := [⟨"r1", "p1"⟩, ⟨"r2", "p1"⟩],
    user_roles := [⟨"u1", "r1"⟩, ⟨"u2", "r2"⟩] }

/-- An assignment-dialog state over `sampleStore` with role `r1` selected
and the single permission `p2` pending. -/
def sampleAssignState : RolePermissionsManager.State :=
  { roles := sampleStore.roles, permissions := sampleStore.permissions,
    rolePermissions := RolePermissionsManager.junctionView sampleStore,
    selectedRole := "r1", selectedPermissions := ["p2"],
    loading := false, isDialogOpen := true }

/-! ### Claim theorems -/

/-- C2: committing with an empty role or an empty permission selection is
rejected by the client-side validation before any store call is made: an
error notification is surfaced and the component state (in particular the
pending selection) and the store are returned unchanged, whatever the
store would have answered. -/
theorem claim_C2 (s : RolePermissionsManager.State) (st : Store)
    (delErr insErr : Option String) (rfFail : Bool)
    (h : s.selectedRole = "" ∨ s.selectedPermissions = []) :
    RolePermissionsManager.handleAssignPermissions s st delErr insErr rfFail =
      ⟨s, st, [errorToast "Please select a role and at least one permission"]⟩ := by
  have h' : s.selectedRole = "" ∨ s.selectedPermissions.length = 0 := by
    rcases h with h | h
    · exact Or.inl h
    · exact Or.inr (by simp [h])
  unfold RolePermissionsManager.handleAssignPermissions
  rw [if_pos h']

/-- Witness for C2 at the initial dialog state (empty role, empty selection). -/
theorem claim_C2_witness :
    (RolePermissionsManager.State.init.selectedRole = "" ∨
      RolePermissionsManager.State.init.selectedPermissions = []) ∧
    RolePermissionsManager.handleAssignPermissions
        RolePermissionsManager.State.init sampleStore none none false =
      ⟨RolePermissionsManager.State.init, sampleStore,
        [errorToast "Please select a role and at least one permission"]⟩ :=
  ⟨Or.inl rfl, claim_C2 _ _ none none false (Or.inl rfl)⟩

/-- C9: toggling on a permission that is already pending appends it again —
the pending selection is a list, not a set — so the selection loses
`Nodup` and the insert payload a subsequent commit would send contains
the same `(role_id, permission_id)` pair at least twice. -/
theorem claim_C9 (s : RolePermissionsManager.State) (p : String)
    (hp : p ∈ s.selectedPermissions) :
    ((RolePermissionsManager.handlePermissionToggle s p true).selectedPermissions =
       s.selectedPermissions ++ [p]) ∧
    ((RolePermissionsManager.handlePermissionToggle s p true).selectedPermissions.count p =
       s.selectedPermissions.count p + 1) ∧
    (¬ (RolePermissionsManager.handlePermissionToggle s p true).selectedPermissions.Nodup) ∧
    (2 ≤ (RolePermissionsManager.insertData
        (RolePermissionsManager.handlePermissionToggle s p true)).count
          (⟨s.selectedRole, p⟩ : RolePermissionRow)) := by
  have happ : (RolePermissionsManager.handlePermissionToggle s p true).selectedPermissions =
      s.selectedPermissions ++ [p] := by
    simp [RolePermissionsManager.handlePermissionToggle]
  have hcount : (s.selectedPermissions ++ [p]).count p = s.selectedPermissions.count p + 1 := by
    simp [List.count_append]
  have hpos : 1 ≤ s.selectedPermissions.count p := List.one_le_count_iff.mpr hp
  refine ⟨happ, by rw [happ]; exact hcount, ?_, ?_⟩
  · intro hnd
    have hle := List.nodup_iff_count_le_one.mp hnd p
    rw [happ, hcount] at hle
    omega
  · have hrole : (RolePermissionsManager.handlePermissionToggle s p true).selectedRole =
        s.selectedRole := by
      simp [RolePermissionsManager.handlePermissionToggle]
    have hinj : Function.Injective
        (fun pid => (⟨s.selectedRole, pid⟩ : RolePermissionRow)) := by
      intro a b hab
      simpa using congrArg RolePermissionRow.permission_id hab
    have : (RolePermissionsManager.insertData
        (RolePermissionsManager.handlePermissionToggle s p true)).count
          (⟨s.selectedRole, p⟩ : RolePermissionRow) =
        (s.selectedPermissions ++ [p]).count p := by
      unfold RolePermissionsManager.insertData
      rw [happ, hrole]
      exact List.count_map_of_injective _ _ hinj p
    rw [this, hcount]
    omega

/-- Witness for C9: toggling `p1` on while it is already pending. -/
theorem claim_C9_witness :
    ("p1" ∈ (["p1", "p2"] : List String)) ∧
    (((RolePermissionsManager.handlePermissionToggle
        { sampleAssignState with selectedPermissions := ["p1", "p2"] } "p1" true).selectedPermissions =
      ["p1", "p2", "p1"]) ∧
     ((RolePermissionsManager.handlePermissionToggle
        { sampleAssignState with selectedPermissions := ["p1", "p2"] } "p1" true).selectedPermissions.count "p1" =
      (["p1", "p2"] : List String).count "p1" + 1) ∧
     (¬ (RolePermissionsManager.handlePermissionToggle
        { sampleAssignState with selectedPermissions := ["p1", "p2"] } "p1" true).selectedPermissions.Nodup) ∧
     (2 ≤ (RolePermissionsManager.insertData
        (RolePermissionsManager.handlePermissionToggle
          { sampleAssignState with selectedPermissions := ["p1", "p2"] } "p1" true)).count
            (⟨"r1", "p1"⟩ : RolePermissionRow))) :=
  ⟨by decide, claim_C9 { sampleAssignState with selectedPermissions := ["p1", "p2"] } "p1" (by decide)⟩

/-- C4: creating a permission whose name already exists in the store fails
with the unique-constraint violation surfaced as an error notification,
and both the store (the existing rows in particular) and the component
state are returned unchanged. -/
theorem claim_C4 (s : PermissionsManager.State) (st : Store) (nm : String) (d : Option String)
    (freshId : String) (rfFail : Bool)
    (hedit : s.editingPermission = none)
    (hdup : ∃ p ∈ st.permissions, p.name = nm) :
    PermissionsManager.handleSubmit s st nm d freshId none rfFail =
      (s, st, [errorToast "duplicate key value violates unique constraint permissions_name_key"]) := by
  unfold PermissionsManager.handleSubmit
  rw [hedit]
  have hins : st.insertPermission ⟨freshId, nm, d⟩ =
      .error "duplicate key value violates unique constraint permissions_name_key" := by
    unfold Store.insertPermission
    rw [if_pos hdup]
  rw [hins]

/-- Witness for C4: re-creating the seeded name `read:users`. -/
theorem claim_C4_witness :
    ((PermissionsManager.State.init.editingPermission = none) ∧
      ∃ p ∈ sampleStore.permissions, p.name = "read:users") ∧
    PermissionsManager.handleSubmit PermissionsManager.State.init sampleStore
        "read:users" none "p9" none false =
      (PermissionsManager.State.init, sampleStore,
        [errorToast "duplicate key value violates unique constraint permissions_name_key"]) :=
  ⟨⟨rfl, by decide⟩,
    claim_C4 PermissionsManager.State.init sampleStore "read:users" none "p9" false rfl (by decide)⟩

/-- C5: the Role Manager's confirmed delete of role `r` removes exactly the
`RolePermission` and `UserRole` rows whose `role_id` is `r` (the cascades of
the schema) and exactly the role row `r`; rows referencing other roles and
the permissions table are untouched. -/
theorem claim_C5 (s : RolesManager.State) (st : Store) (r : String) (rfFail : Bool) :
    (∀ rp : RolePermissionRow,
        rp ∈ (RolesManager.handleDelete s st r true none rfFail).2.1.role_permissions ↔
          (rp ∈ st.role_permissions ∧ rp.role_id ≠ r)) ∧
    (∀ ur : UserRoleRow,
        ur ∈ (RolesManager.handleDelete s st r true none rfFail).2.1.user_roles ↔
          (ur ∈ st.user_roles ∧ ur.role_id ≠ r)) ∧
    ((RolesManager.handleDelete s st r true none rfFail).2.1.permissions = st.permissions) ∧
    (∀ ro : Role,
        ro ∈ (RolesManager.handleDelete s st r true none rfFail).2.1.roles ↔
          (ro ∈ st.roles ∧ ro.id ≠ r)) := by
  have hstore : (RolesManager.handleDelete s st r true none rfFail).2.1 = st.deleteRole r := rfl
  rw [hstore]
  unfold Store.deleteRole
  refine ⟨fun rp => ?_, fun ur => ?_, rfl, fun ro => ?_⟩ <;>
    simp [List.mem_filter]

/-- C10: `handleRemovePermission` issues the single-pair junction delete
unconditionally (there is no confirmation parameter in its flow) and on
success triggers the full composite refetch; by contrast the entity
delete handlers of the Permission and Role Managers do nothing at all
when the confirmation is declined. -/
theorem claim_C10 (s : RolePermissionsManager.State) (st : Store) (r p : String)
    (ps : PermissionsManager.State) (rs : RolesManager.State) (pid rid : String)
    (ne1 ne2 : Option String) (rf1 rf2 : Bool) :
    (∀ rp : RolePermissionRow,
        rp ∈ (RolePermissionsManager.handleRemovePermission s st r p none false).store.role_permissions ↔
          (rp ∈ st.role_permissions ∧ ¬ (rp.role_id = r ∧ rp.permission_id = p))) ∧
    ((RolePermissionsManager.handleRemovePermission s st r p none false).store.permissions =
       st.permissions) ∧
    ((RolePermissionsManager.handleRemovePermission s st r p none false).store.roles = st.roles) ∧
    ((RolePermissionsManager.handleRemovePermission s st r p none false).state =
       (RolePermissionsManager.fetchData s (st.deleteRolePermission r p) false).1) ∧
    ((RolePermissionsManager.handleRemovePermission s st r p none false).toasts =
       [successToast "Permission removed successfully"]) ∧
    (PermissionsManager.handleDelete ps st pid false ne1 rf1 = (ps, st, [])) ∧
    (RolesManager.handleDelete rs st rid false ne2 rf2 = (rs, st, [])) := by
  have hstore : (RolePermissionsManager.handleRemovePermission s st r p none false).store =
      st.deleteRolePermission r p := rfl
  refine ⟨fun rp => ?_, rfl, rfl, rfl, rfl, rfl, rfl⟩
  rw [hstore]
  unfold Store.deleteRolePermission
  simp only [List.mem_filter, decide_eq_true_eq]

/-- Totality of the character-list order. -/
theorem charListLe_total : ∀ xs ys : List Char, charListLe xs ys = true ∨ charListLe ys xs = true
  | [], _ => Or.inl (by simp [charListLe])
  | _ :: _, [] => Or.inr (by simp [charListLe])
  | x :: xs, y :: ys => by
    rcases Nat.lt_trichotomy x.toNat y.toNat with h | h | h
    · exact Or.inl (by simp [charListLe, h])
    · rcases charListLe_total xs ys with h2 | h2
      · exact Or.inl (by simp [charListLe, h, Nat.lt_irrefl, h2])
      · exact Or.inr (by simp [charListLe, h, Nat.lt_irrefl, h2])
    · exact Or.inr (by simp [charListLe, h])

/-- Transitivity of the character-list order. -/
theorem charListLe_trans : ∀ xs ys zs : List Char,
    charListLe xs ys = true → charListLe ys zs = true → charListLe xs zs = true
  | [], _, _, _, _ => by simp [charListLe]
  | _ :: _, [], _, h1, _ => by simp [charListLe] at h1
  | _ :: _, _ :: _, [], _, h2 => by simp [charListLe] at h2
  | x :: xs, y :: ys, z :: zs, h1, h2 => by
    simp only [charListLe] at h1 h2 ⊢
    rcases Nat.lt_trichotomy x.toNat y.toNat with hxy | hxy | hxy
    · rcases Nat.lt_trichotomy y.toNat z.toNat with hyz | hyz | hyz
      · have hxz : x.toNat < z.toNat := Nat.lt_trans hxy hyz
        simp [hxz]
      · have hxz : x.toNat < z.toNat := hyz ▸ hxy
        simp [hxz]
      · rw [if_neg (Nat.lt_asymm hyz), if_pos hyz] at h2
        exact absurd h2 (by simp)
    · rcases Nat.lt_trichotomy y.toNat z.toNat with hyz | hyz | hyz
      · have hxz : x.toNat < z.toNat := hxy ▸ hyz
        simp [hxz]
      · have h1' : charListLe xs ys = true := by
          rw [if_neg (by omega), if_neg (by omega)] at h1; exact h1
        have h2' : charListLe ys zs = true := by
          rw [if_neg (by omega), if_neg (by omega)] at h2; exact h2
        rw [if_neg (by omega), if_neg (by omega)]
        exact charListLe_trans xs ys zs h1' h2'
      · rw [if_neg (by omega), if_pos hyz] at h2
        exact absurd h2 (by simp)
    · rw [if_neg (Nat.lt_asymm hxy), if_pos hxy] at h1
      exact absurd h1 (by simp)

theorem strLe_total (a b : String) : strLe a b = true ∨ strLe b a = true :=
  charListLe_total a.toList b.toList

theorem strLe_trans (a b c : String) :
    strLe a b = true → strLe b c = true → strLe a c = true :=
  charListLe_trans a.toList b.toList c.toList

instance : IsTotal Permission permNameLe := ⟨fun a b => strLe_total a.name b.name⟩

instance : IsTrans Permission permNameLe := ⟨fun a b c => strLe_trans a.name b.name c.name⟩

instance : IsTotal Role roleNameLe := ⟨fun a b => strLe_total a.name b.name⟩

instance : IsTrans Role roleNameLe := ⟨fun a b c => strLe_trans a.name b.name c.name⟩

/-- C7: a successful Permission Manager fetch yields all permission rows
of the store (a permutation of them), sorted ascending by name, with no
error notification. -/
theorem claim_C7 (s : PermissionsManager.State) (st : Store) :
    ((PermissionsManager.fetchPermissions s st false).1.permissions.Perm st.permissions) ∧
    List.Sorted permNameLe (PermissionsManager.fetchPermissions s st false).1.permissions ∧
    ((PermissionsManager.fetchPermissions s st false).2 = none) := by
  have h1 : (PermissionsManager.fetchPermissions s st false).1.permissions =
      sortPermissionsByName st.permissions := rfl
  refine ⟨?_, ?_, rfl⟩
  · rw [h1]
    exact List.perm_insertionSort permNameLe st.permissions
  · rw [h1]
    exact List.sorted_insertionSort permNameLe st.permissions

/-- Projecting permission ids out of the joined-and-filtered junction view
agrees with projecting them from the raw junction rows, whenever every row
in sight has both parents present (which the foreign keys guarantee). -/
theorem filtered_view_permission_ids (st : Store) (l : List RolePermissionRow) (r : String)
    (h : ∀ rp ∈ l, (∃ ro ∈ st.roles, ro.id = rp.role_id) ∧
        (∃ p ∈ st.permissions, p.id = rp.permission_id)) :
    ((l.filterMap (RolePermissionsManager.viewOf st)).filter
        (fun v => v.role_id = r)).map (fun v => v.permission_id) =
      (l.filter (fun rp => rp.role_id = r)).map (fun rp => rp.permission_id) := by
  induction l with
  | nil => rfl
  | cons head tail ih =>
    obtain ⟨⟨ro, hro, hroid⟩, ⟨pp, hpp, hppid⟩⟩ := h head (List.mem_cons_self _ _)
    have hfr : (st.roles.find? (fun x => x.id = head.role_id)).isSome := by
      rw [List.find?_isSome]
      exact ⟨ro, hro, by simp [hroid]⟩
    have hfp : (st.permissions.find? (fun x => x.id = head.permission_id)).isSome := by
      rw [List.find?_isSome]
      exact ⟨pp, hpp, by simp [hppid]⟩
    obtain ⟨ro', hro'⟩ := Option.isSome_iff_exists.mp hfr
    obtain ⟨pp', hpp'⟩ := Option.isSome_iff_exists.mp hfp
    have hview : RolePermissionsManager.viewOf st head =
        some ⟨head.role_id, head.permission_id, ro'.name, pp'.name⟩ := by
      unfold RolePermissionsManager.viewOf
      rw [hro', hpp']
    have ih' := ih (fun rp hrp => h rp (List.mem_cons_of_mem _ hrp))
    rw [List.filterMap_cons, hview]
    by_cases hr : head.role_id = r
    · simp [List.filter_cons, hr, ih']
    · simp [List.filter_cons, hr, ih']

/-- C6: once the component's junction cache agrees with the store (as after
any completed fetch), selecting a role seeds the pending selection with
exactly the permission ids persisted for that role — in particular it is
non-empty whenever the role has assignments — and toggling mutates only
the pending selection in memory: roles, permissions, the junction cache
and the selected role are untouched (the toggle handler does not take the
store at all). -/
theorem claim_C6 (s : RolePermissionsManager.State) (st : Store) (r pidT : String) (b : Bool)
    (hsync : s.rolePermissions = RolePermissionsManager.junctionView st)
    (hwf : st.WF) :
    ((RolePermissionsManager.handleRoleSelect s r).selectedRole = r) ∧
    ((RolePermissionsManager.handleRoleSelect s r).selectedPermissions =
       (st.role_permissions.filter (fun rp => rp.role_id = r)).map
         (fun rp => rp.permission_id)) ∧
    (st.role_permissions.filter (fun rp => rp.role_id = r) ≠ [] →
       (RolePermissionsManager.handleRoleSelect s r).selectedPermissions ≠ []) ∧
    ((RolePermissionsManager.handlePermissionToggle s pidT b).roles = s.roles) ∧
    ((RolePermissionsManager.handlePermissionToggle s pidT b).permissions = s.permissions) ∧
    ((RolePermissionsManager.handlePermissionToggle s pidT b).rolePermissions =
       s.rolePermissions) ∧
    ((RolePermissionsManager.handlePermissionToggle s pidT b).selectedRole =
       s.selectedRole) := by
  have hseed : (RolePermissionsManager.handleRoleSelect s r).selectedPermissions =
      (st.role_permissions.filter (fun rp => rp.role_id = r)).map
        (fun rp => rp.permission_id) := by
    show (RolePermissionsManager.getRolePermissions s r).map (fun rp => rp.permission_id) = _
    unfold RolePermissionsManager.getRolePermissions
    rw [hsync]
    exact filtered_view_permission_ids st st.role_permissions r hwf
  refine ⟨rfl, hseed, ?_, ?_, ?_, ?_, ?_⟩
  · intro hne
    rw [hseed]
    simpa using hne
  all_goals cases b <;> simp [RolePermissionsManager.handlePermissionToggle]

/-- Witness for C6 over the sample store with role `r1` (one persisted
assignment, `p1`). -/
theorem claim_C6_witness :
    (sampleAssignState.rolePermissions =
        RolePermissionsManager.junctionView sampleStore ∧ sampleStore.WF) ∧
    (((RolePermissionsManager.handleRoleSelect sampleAssignState "r1").selectedRole = "r1") ∧
     ((RolePermissionsManager.handleRoleSelect sampleAssignState "r1").selectedPermissions =
        (sampleStore.role_permissions.filter (fun rp => rp.role_id = "r1")).map
          (fun rp => rp.permission_id)) ∧
     (sampleStore.role_permissions.filter (fun rp => rp.role_id = "r1") ≠ [] →
        (RolePermissionsManager.handleRoleSelect sampleAssignState "r1").selectedPermissions ≠ []) ∧
     ((RolePermissionsManager.handlePermissionToggle sampleAssignState "p2" true).roles =
        sampleAssignState.roles) ∧
     ((RolePermissionsManager.handlePermissionToggle sampleAssignState "p2" true).permissions =
        sampleAssignState.permissions) ∧
     ((RolePermissionsManager.handlePermissionToggle sampleAssignState "p2" true).rolePermissions =
        sampleAssignState.rolePermissions) ∧
     ((RolePermissionsManager.handlePermissionToggle sampleAssignState "p2" true).selectedRole =
        sampleAssignState.selectedRole)) :=
  ⟨⟨rfl, by decide⟩, claim_C6 sampleAssignState sampleStore "r1" "p2" true rfl (by decide)⟩

/-- The Permission Manager state right after a successful initial load
from `sampleStore`. -/
def permsStateAfterLoad : PermissionsManager.State :=
  (PermissionsManager.fetchPermissions PermissionsManager.State.init sampleStore false).1

/-- C8 counterexample: after a successful load the list holds rows; a
mutation (creating `read:reports`) whose refetch then fails leaves those
pre-mutation rows in place — the list does not "remain empty". -/
theorem claim_C8_counterexample :
    (permsStateAfterLoad.permissions ≠ []) ∧
    ((PermissionsManager.handleSubmit permsStateAfterLoad sampleStore
        "read:reports" none "p9" none true).2.2 =
      [successToast "Permission created successfully",
       errorToast "Failed to fetch permissions"]) ∧
    ((PermissionsManager.handleSubmit permsStateAfterLoad sampleStore
        "read:reports" none "p9" none true).1.permissions =
      permsStateAfterLoad.permissions) ∧
    ((PermissionsManager.handleSubmit permsStateAfterLoad sampleStore
        "read:reports" none "p9" none true).1.permissions ≠ []) := by
  decide

/-- C8 as amended: a failing fetch surfaces exactly one fixed non-fatal
notification and leaves the in-memory list unchanged — so it stays empty
only when it already was empty (initial load); after a successful create
whose refetch fails, the pre-mutation rows are retained. -/
theorem claim_C8_amended (s : PermissionsManager.State) (st : Store)
    (nm : String) (d : Option String) (freshId : String)
    (hedit : s.editingPermission = none)
    (hname : ¬ ∃ q ∈ st.permissions, q.name = nm)
    (hid : ¬ ∃ q ∈ st.permissions, q.id = freshId) :
    ((PermissionsManager.fetchPermissions s st true).1.permissions = s.permissions) ∧
    ((PermissionsManager.fetchPermissions s st true).2 =
       some (errorToast "Failed to fetch permissions")) ∧
    ((PermissionsManager.handleSubmit s st nm d freshId none true).1.permissions =
       s.permissions) ∧
    ((PermissionsManager.handleSubmit s st nm d freshId none true).2.2 =
       [successToast "Permission created successfully",
        errorToast "Failed to fetch permissions"]) := by
  have hins : st.insertPermission ⟨freshId, nm, d⟩ =
      .ok { st with permissions := st.permissions ++ [⟨freshId, nm, d⟩] } := by
    unfold Store.insertPermission
    rw [if_neg hname, if_neg hid]
  refine ⟨rfl, rfl, ?_, ?_⟩ <;>
    · unfold PermissionsManager.handleSubmit
      rw [hedit, hins]
      rfl

/-- Witness for C8's amended statement at the loaded sample state. -/
theorem claim_C8_witness :
    ((permsStateAfterLoad.editingPermission = none) ∧
     (¬ ∃ q ∈ sampleStore.permissions, q.name = "read:reports") ∧
     (¬ ∃ q ∈ sampleStore.permissions, q.id = "p9")) ∧
    (((PermissionsManager.fetchPermissions permsStateAfterLoad sampleStore true).1.permissions =
        permsStateAfterLoad.permissions) ∧
     ((PermissionsManager.fetchPermissions permsStateAfterLoad sampleStore true).2 =
        some (errorToast "Failed to fetch permissions")) ∧
     ((PermissionsManager.handleSubmit permsStateAfterLoad sampleStore
         "read:reports" none "p9" none true).1.permissions =
        permsStateAfterLoad.permissions) ∧
     ((PermissionsManager.handleSubmit permsStateAfterLoad sampleStore
         "read:reports" none "p9" none true).2.2 =
        [successToast "Permission created successfully",
         errorToast "Failed to fetch permissions"])) :=
  ⟨⟨by decide, by decide, by decide⟩,
    claim_C8_amended permsStateAfterLoad sampleStore "read:reports" none "p9"
      (by decide) (by decide) (by decide)⟩

/-- C3 counterexample: with role `r1` selected and only `p2` pending over
`sampleStore` (where `r1` persistently holds `p1`), a transport failure
of the delete step of the two-step replace is discarded: the run surfaces
a success notification — no error notification at all — and the store
keeps the `(r1, p1)` row the replace was meant to delete alongside the
newly inserted `(r1, p2)`. -/
theorem claim_C3_counterexample :
    ((RolePermissionsManager.handleAssignPermissions sampleAssignState sampleStore
        (some "network error") none false).toasts =
      [successToast "Permissions assigned successfully"]) ∧
    ((⟨"r1", "p1"⟩ : RolePermissionRow) ∈
      (RolePermissionsManager.handleAssignPermissions sampleAssignState sampleStore
        (some "network error") none false).store.role_permissions) ∧
    ((⟨"r1", "p2"⟩ : RolePermissionRow) ∈
      (RolePermissionsManager.handleAssignPermissions sampleAssignState sampleStore
        (some "network error") none false).store.role_permissions) := by
  decide

/-- A store whose junction rows reference only `r2`. -/
def otherRoleStore : Store :=
  { sampleStore with role_permissions := [⟨"r2", "p1"⟩] }

/-- C3 as amended: every checked operation failure is caught where it
occurs and surfaced as a single human-readable notification with no
automatic retry — the failing insert leaves the store exactly as the
delete left it, the failing removal and fetch change nothing — and the
client-side validation failure surfaces one notification without
touching the store. The delete step of the two-step replace is the one
exception: its result is never inspected, so its failure adds no
notification; when the delete would have removed nothing the whole
outcome coincides with that of a run whose delete succeeded. -/
theorem claim_C3_amended (s s2 : RolePermissionsManager.State) (st st2 : Store)
    (r p msg : String) (rfFail rf2 : Bool) (dE iE : Option String)
    (hR : s.selectedRole ≠ "") (hP : s.selectedPermissions ≠ [])
    (hNo : ∀ rp ∈ st2.role_permissions, rp.role_id ≠ s.selectedRole) :
    ((RolePermissionsManager.handleAssignPermissions s st none (some msg) rfFail).toasts =
       [errorToast msg]) ∧
    ((RolePermissionsManager.handleAssignPermissions s st none (some msg) rfFail).store =
       st.deleteRolePermissionsByRole s.selectedRole) ∧
    ((RolePermissionsManager.handleRemovePermission s2 st r p (some msg) rf2).toasts =
       [errorToast msg]) ∧
    ((RolePermissionsManager.handleRemovePermission s2 st r p (some msg) rf2).store = st) ∧
    (RolePermissionsManager.fetchData s2 st true =
       ({ s2 with loading := false }, some (errorToast "Failed to fetch data"))) ∧
    (RolePermissionsManager.handleAssignPermissions { s with selectedRole := "" } st dE iE rf2 =
       ⟨{ s with selectedRole := "" }, st,
         [errorToast "Please select a role and at least one permission"]⟩) ∧
    (RolePermissionsManager.handleAssignPermissions s st2 (some msg) iE rf2 =
       RolePermissionsManager.handleAssignPermissions s st2 none iE rf2) := by
  have hguard : ¬ (s.selectedRole = "" ∨ s.selectedPermissions.length = 0) := by
    rintro (h | h)
    · exact hR h
    · exact hP (List.length_eq_zero.mp h)
  have hfail : RolePermissionsManager.handleAssignPermissions s st none (some msg) rfFail =
      ⟨s, st.deleteRolePermissionsByRole s.selectedRole, [errorToast msg]⟩ := by
    unfold RolePermissionsManager.handleAssignPermissions
    rw [if_neg hguard]
  have hvalid : RolePermissionsManager.handleAssignPermissions
      { s with selectedRole := "" } st dE iE rf2 =
      ⟨{ s with selectedRole := "" }, st,
        [errorToast "Please select a role and at least one permission"]⟩ := by
    unfold RolePermissionsManager.handleAssignPermissions
    rw [if_pos (Or.inl rfl)]
  have hdel : st2.deleteRolePermissionsByRole s.selectedRole = st2 := by
    unfold Store.deleteRolePermissionsByRole
    have hkeep : st2.role_permissions.filter
        (fun rp => rp.role_id ≠ s.selectedRole) = st2.role_permissions :=
      List.filter_eq_self.mpr (fun rp hrp => by simpa using hNo rp hrp)
    rw [hkeep]
  have hignored : RolePermissionsManager.handleAssignPermissions s st2 (some msg) iE rf2 =
      RolePermissionsManager.handleAssignPermissions s st2 none iE rf2 := by
    unfold RolePermissionsManager.handleAssignPermissions
    rw [if_neg hguard, if_neg hguard]
    rw [hdel]
  exact ⟨by rw [hfail], by rw [hfail], rfl, rfl, rfl, hvalid, hignored⟩

/-- Witness for C3's amended statement at the sample fixtures. -/
theorem claim_C3_witness :
    ((sampleAssignState.selectedRole ≠ "") ∧
     (sampleAssignState.selectedPermissions ≠ []) ∧
     (∀ rp ∈ otherRoleStore.role_permissions, rp.role_id ≠ sampleAssignState.selectedRole)) ∧
    (((RolePermissionsManager.handleAssignPermissions sampleAssignState sampleStore
          none (some "network error") false).toasts = [errorToast "network error"]) ∧
     ((RolePermissionsManager.handleAssignPermissions sampleAssignState sampleStore
          none (some "network error") false).store =
        sampleStore.deleteRolePermissionsByRole sampleAssignState.selectedRole) ∧
     ((RolePermissionsManager.handleRemovePermission sampleAssignState sampleStore
          "r1" "p1" (some "network error") false).toasts = [errorToast "network error"]) ∧
     ((RolePermissionsManager.handleRemovePermission sampleAssignState sampleStore
          "r1" "p1" (some "network error") false).store = sampleStore) ∧
     (RolePermissionsManager.fetchData sampleAssignState sampleStore true =
        ({ sampleAssignState with loading := false },
          some (errorToast "Failed to fetch data"))) ∧
     (RolePermissionsManager.handleAssignPermissions
          { sampleAssignState with selectedRole := "" } sampleStore none none false =
        ⟨{ sampleAssignState with selectedRole := "" }, sampleStore,
          [errorToast "Please select a role and at least one permission"]⟩) ∧
     (RolePermissionsManager.handleAssignPermissions sampleAssignState otherRoleStore
          (some "network error") none false =
        RolePermissionsManager.handleAssignPermissions sampleAssignState otherRoleStore
          none none false)) :=
  ⟨⟨by decide, by decide, by decide⟩,
    claim_C3_amended sampleAssignState sampleAssignState sampleStore otherRoleStore
      "r1" "p1" "network error" false false none none
      (by decide) (by decide) (by decide)⟩

/-- Modelled from the spec's words for the two-step replace: the store in
which every junction row of `r` has been deleted and then one row per id
in `pids` inserted, everything else untouched. The commit handler is
compared against this definition. -/
def specReplacedStore (st : Store) (r : String) (pids : List String) : Store :=
  let newRows := pids.map (fun pid => (⟨r, pid⟩ : RolePermissionRow))
  let kept := st.role_permissions.filter (fun rp => rp.role_id ≠ r)
  { st with role_permissions := kept ++ newRows }

/-- A commit run whose guard passes and whose insert succeeds reduces to
the success outcome: the new store, one success toast, dialog closed,
selection cleared, full refetch. -/
theorem handleAssignPermissions_ok_eq (s : RolePermissionsManager.State) (st stNew : Store)
    (hguard : ¬ (s.selectedRole = "" ∨ s.selectedPermissions.length = 0))
    (hins : (st.deleteRolePermissionsByRole s.selectedRole).insertRolePermissions
        (RolePermissionsManager.insertData s) = .ok stNew) :
    RolePermissionsManager.handleAssignPermissions s st none none false =
      ⟨(RolePermissionsManager.fetchData
          { s with isDialogOpen := false, selectedRole := "", selectedPermissions := [] }
          stNew false).1,
        stNew, [successToast "Permissions assigned successfully"]⟩ := by
  unfold RolePermissionsManager.handleAssignPermissions
  rw [if_neg hguard]
  simp only [hins]
  rfl

/-- The dialog state of the C1 counterexample: `r1` selected and the
pending list `["p1", "p1", "p2"]` (the toggle handler appends without
deduplicating, so such a list is reachable, cf. C9). -/
def dupAssignState : RolePermissionsManager.State :=
  { sampleAssignState with selectedPermissions := ["p1", "p1", "p2"] }

/-- C1 counterexample: a non-empty role and a non-empty pending list —
valid input in the claim's sense — for which the commit does not replace:
the insert step dies on the composite primary key, the run surfaces an
error toast, the store is left with no rows at all for `r1`, and after a
completed refetch `permissionsFor(r1)` is empty instead of the committed
set (it does not contain `p2`). -/
theorem claim_C1_counterexample :
    (dupAssignState.selectedRole ≠ "" ∧ dupAssignState.selectedPermissions ≠ []) ∧
    ((RolePermissionsManager.handleAssignPermissions dupAssignState sampleStore
        none none false).toasts =
      [errorToast "duplicate key value violates unique constraint role_permissions_pkey"]) ∧
    ((RolePermissionsManager.handleAssignPermissions dupAssignState sampleStore
        none none false).store.role_permissions.filter
          (fun rp => rp.role_id = "r1") = []) ∧
    ("p2" ∈ dupAssignState.selectedPermissions ∧
     "p2" ∉ (RolePermissionsManager.getRolePermissions
        (RolePermissionsManager.fetchData
          (RolePermissionsManager.handleAssignPermissions dupAssignState sampleStore
            none none false).state
          (RolePermissionsManager.handleAssignPermissions dupAssignState sampleStore
            none none false).store
          false).1 "r1").map (fun v => v.permission_id)) := by
  decide

/-- C1 as amended: for valid input that additionally references an
existing role and existing permissions and contains no duplicate id —
the conditions the schema's keys force — the commit performs exactly the
two-step replace described by the spec (`specReplacedStore`), surfaces
one success toast, and once the refetch completes `permissionsFor(roleId)`
returns exactly the committed ids; re-committing the same set through the
dialog flow leaves the store identical (idempotence). -/
theorem claim_C1_amended (s : RolePermissionsManager.State) (st : Store) (pids : List String)
    (hpids : s.selectedPermissions = pids)
    (hR : s.selectedRole ≠ "") (hne : pids ≠ [])
    (hnodup : pids.Nodup)
    (hrex : ∃ ro ∈ st.roles, ro.id = s.selectedRole)
    (hpex : ∀ pid ∈ pids, ∃ p ∈ st.permissions, p.id = pid)
    (hwf : st.WF) :
    ((RolePermissionsManager.handleAssignPermissions s st none none false).store =
       specReplacedStore st s.selectedRole pids) ∧
    ((RolePermissionsManager.handleAssignPermissions s st none none false).toasts =
       [successToast "Permissions assigned successfully"]) ∧
    ((RolePermissionsManager.getRolePermissions
        (RolePermissionsManager.handleAssignPermissions s st none none false).state
        s.selectedRole).map (fun v => v.permission_id) = pids) ∧
    ((RolePermissionsManager.handleAssignPermissions
        (RolePermissionsManager.handleRoleSelect
          (RolePermissionsManager.handleAssignPermissions s st none none false).state
          s.selectedRole)
        (RolePermissionsManager.handleAssignPermissions s st none none false).store
        none none false).store =
      (RolePermissionsManager.handleAssignPermissions s st none none false).store) := by
  have hguard : ¬ (s.selectedRole = "" ∨ s.selectedPermissions.length = 0) := by
    rintro (h | h)
    · exact hR h
    · rw [hpids] at h
      exact hne (List.length_eq_zero.mp h)
  have hrows : RolePermissionsManager.insertData s =
      pids.map (fun pid => (⟨s.selectedRole, pid⟩ : RolePermissionRow)) := by
    unfold RolePermissionsManager.insertData
    rw [hpids]
  have hB1 : ∀ row ∈ pids.map (fun pid => (⟨s.selectedRole, pid⟩ : RolePermissionRow)),
      ∃ ro ∈ (st.deleteRolePermissionsByRole s.selectedRole).roles, ro.id = row.role_id := by
    intro row hrow
    obtain ⟨pid, _, rfl⟩ := List.mem_map.mp hrow
    exact hrex
  have hB2 : ∀ row ∈ pids.map (fun pid => (⟨s.selectedRole, pid⟩ : RolePermissionRow)),
      ∃ p ∈ (st.deleteRolePermissionsByRole s.selectedRole).permissions,
        p.id = row.permission_id := by
    intro row hrow
    obtain ⟨pid, hpid, rfl⟩ := List.mem_map.mp hrow
    exact hpex pid hpid
  have hBnodup : (pids.map (fun pid => (⟨s.selectedRole, pid⟩ : RolePermissionRow))).Nodup :=
    List.Nodup.map (fun a b hab => by simpa using congrArg RolePermissionRow.permission_id hab)
      hnodup
  have hBnotin : ∀ row ∈ pids.map (fun pid => (⟨s.selectedRole, pid⟩ : RolePermissionRow)),
      row ∉ (st.deleteRolePermissionsByRole s.selectedRole).role_permissions := by
    intro row hrow hmem
    obtain ⟨pid, _, rfl⟩ := List.mem_map.mp hrow
    have hmem2 : (⟨s.selectedRole, pid⟩ : RolePermissionRow) ∈
        st.role_permissions.filter (fun rp => rp.role_id ≠ s.selectedRole) := hmem
    have hkept := (List.mem_filter.mp hmem2).2
    simp at hkept
  have hinsB : (st.deleteRolePermissionsByRole s.selectedRole).insertRolePermissions
      (pids.map (fun pid => (⟨s.selectedRole, pid⟩ : RolePermissionRow))) =
      .ok (specReplacedStore st s.selectedRole pids) := by
    unfold Store.insertRolePermissions
    rw [if_neg (not_not_intro hB1), if_neg (not_not_intro hB2),
        if_neg (not_not_intro ⟨hBnodup, hBnotin⟩)]
    rfl
  have hins : (st.deleteRolePermissionsByRole s.selectedRole).insertRolePermissions
      (RolePermissionsManager.insertData s) = .ok (specReplacedStore st s.selectedRole pids) := by
    rw [hrows]
    exact hinsB
  have hout := handleAssignPermissions_ok_eq s st _ hguard hins
  have hparents : ∀ rp ∈ (specReplacedStore st s.selectedRole pids).role_permissions,
      (∃ ro ∈ (specReplacedStore st s.selectedRole pids).roles, ro.id = rp.role_id) ∧
      (∃ p ∈ (specReplacedStore st s.selectedRole pids).permissions,
        p.id = rp.permission_id) := by
    intro rp hrp
    have hrp2 : rp ∈ st.role_permissions.filter (fun x => x.role_id ≠ s.selectedRole) ++
        pids.map (fun pid => (⟨s.selectedRole, pid⟩ : RolePermissionRow)) := hrp
    rcases List.mem_append.mp hrp2 with h | h
    · exact hwf rp (List.mem_filter.mp h).1
    · exact ⟨hB1 rp h, hB2 rp h⟩
  have hAfilter : (st.role_permissions.filter
      (fun rp => rp.role_id ≠ s.selectedRole)).filter
        (fun rp => rp.role_id = s.selectedRole) = [] := by
    rw [List.filter_eq_nil_iff]
    intro a ha
    have hne' := (List.mem_filter.mp ha).2
    simp at hne' ⊢
    exact hne'
  have hBfilter : (pids.map (fun pid => (⟨s.selectedRole, pid⟩ : RolePermissionRow))).filter
      (fun rp => rp.role_id = s.selectedRole) =
      pids.map (fun pid => (⟨s.selectedRole, pid⟩ : RolePermissionRow)) := by
    rw [List.filter_eq_self]
    intro a ha
    obtain ⟨pid, _, rfl⟩ := List.mem_map.mp ha
    simp
  have hview : ((RolePermissionsManager.junctionView
      (specReplacedStore st s.selectedRole pids)).filter
        (fun v => v.role_id = s.selectedRole)).map (fun v => v.permission_id) = pids := by
    unfold RolePermissionsManager.junctionView
    rw [filtered_view_permission_ids (specReplacedStore st s.selectedRole pids)
        (specReplacedStore st s.selectedRole pids).role_permissions s.selectedRole hparents]
    show ((st.role_permissions.filter (fun rp => rp.role_id ≠ s.selectedRole) ++
        pids.map (fun pid => (⟨s.selectedRole, pid⟩ : RolePermissionRow))).filter
          (fun rp => rp.role_id = s.selectedRole)).map (fun rp => rp.permission_id) = pids
    rw [List.filter_append, hAfilter, hBfilter]
    simp only [List.nil_append, List.map_map]
    exact List.map_id'' (fun x => rfl) pids
  refine ⟨by rw [hout], by rw [hout], ?_, ?_⟩
  · rw [hout]
    exact hview
  · rw [hout]
    have hs2sel : (RolePermissionsManager.handleRoleSelect
        (RolePermissionsManager.fetchData
          { s with isDialogOpen := false, selectedRole := "", selectedPermissions := [] }
          (specReplacedStore st s.selectedRole pids) false).1
        s.selectedRole).selectedPermissions = pids := hview
    have hguard2 : ¬ ((RolePermissionsManager.handleRoleSelect
        (RolePermissionsManager.fetchData
          { s with isDialogOpen := false, selectedRole := "", selectedPermissions := [] }
          (specReplacedStore st s.selectedRole pids) false).1
        s.selectedRole).selectedRole = "" ∨
        (RolePermissionsManager.handleRoleSelect
          (RolePermissionsManager.fetchData
            { s with isDialogOpen := false, selectedRole := "", selectedPermissions := [] }
            (specReplacedStore st s.selectedRole pids) false).1
          s.selectedRole).selectedPermissions.length = 0) := by
      rintro (h | h)
      · exact hR h
      · rw [hs2sel] at h
        exact hne (List.length_eq_zero.mp h)
    have hAidem : (st.role_permissions.filter
        (fun rp => rp.role_id ≠ s.selectedRole)).filter
          (fun rp => rp.role_id ≠ s.selectedRole) =
        st.role_permissions.filter (fun rp => rp.role_id ≠ s.selectedRole) := by
      rw [List.filter_eq_self]
      intro a ha
      exact (List.mem_filter.mp ha).2
    have hBempty : (pids.map (fun pid => (⟨s.selectedRole, pid⟩ : RolePermissionRow))).filter
        (fun rp => rp.role_id ≠ s.selectedRole) = [] := by
      rw [List.filter_eq_nil_iff]
      intro a ha
      obtain ⟨pid, _, rfl⟩ := List.mem_map.mp ha
      simp
    have hdel2 : (specReplacedStore st s.selectedRole pids).deleteRolePermissionsByRole
        s.selectedRole = st.deleteRolePermissionsByRole s.selectedRole := by
      unfold specReplacedStore Store.deleteRolePermissionsByRole
      simp only
      rw [List.filter_append, hAidem, hBempty, List.append_nil]
    have hrows2 : RolePermissionsManager.insertData
        (RolePermissionsManager.handleRoleSelect
          (RolePermissionsManager.fetchData
            { s with isDialogOpen := false, selectedRole := "", selectedPermissions := [] }
            (specReplacedStore st s.selectedRole pids) false).1
          s.selectedRole) =
        pids.map (fun pid => (⟨s.selectedRole, pid⟩ : RolePermissionRow)) := by
      unfold RolePermissionsManager.insertData
      rw [hs2sel]
      have hrole : (RolePermissionsManager.handleRoleSelect
          (RolePermissionsManager.fetchData
            { s with isDialogOpen := false, selectedRole := "", selectedPermissions := [] }
            (specReplacedStore st s.selectedRole pids) false).1
          s.selectedRole).selectedRole = s.selectedRole := rfl
      rw [hrole]
    have hins2 : ((specReplacedStore st s.selectedRole pids).deleteRolePermissionsByRole
        s.selectedRole).insertRolePermissions
        (RolePermissionsManager.insertData
          (RolePermissionsManager.handleRoleSelect
            (RolePermissionsManager.fetchData
              { s with isDialogOpen := false, selectedRole := "", selectedPermissions := [] }
              (specReplacedStore st s.selectedRole pids) false).1
            s.selectedRole)) =
        .ok (specReplacedStore st s.selectedRole pids) := by
      rw [hrows2, hdel2]
      exact hinsB
    have hout2 := handleAssignPermissions_ok_eq _ _ _ hguard2 hins2
    rw [hout2]

/-- Witness for C1's amended statement: committing `{p2}` to `r1` over the
sample store (where `r1` currently holds `p1`). -/
theorem claim_C1_witness :
    ((sampleAssignState.selectedPermissions = ["p2"]) ∧
     (sampleAssignState.selectedRole ≠ "") ∧
     ((["p2"] : List String) ≠ []) ∧
     (["p2"] : List String).Nodup ∧
     (∃ ro ∈ sampleStore.roles, ro.id = sampleAssignState.selectedRole) ∧
     (∀ pid ∈ (["p2"] : List String), ∃ p ∈ sampleStore.permissions, p.id = pid) ∧
     sampleStore.WF) ∧
    (((RolePermissionsManager.handleAssignPermissions sampleAssignState sampleStore
         none none false).store =
        specReplacedStore sampleStore sampleAssignState.selectedRole ["p2"]) ∧
     ((RolePermissionsManager.handleAssignPermissions sampleAssignState sampleStore
         none none false).toasts = [successToast "Permissions assigned successfully"]) ∧
     ((RolePermissionsManager.getRolePermissions
         (RolePermissionsManager.handleAssignPermissions sampleAssignState sampleStore
           none none false).state
         sampleAssignState.selectedRole).map (fun v => v.permission_id) = ["p2"]) ∧
     ((RolePermissionsManager.handleAssignPermissions
         (RolePermissionsManager.handleRoleSelect
           (RolePermissionsManager.handleAssignPermissions sampleAssignState sampleStore
             none none false).state
           sampleAssignState.selectedRole)
         (RolePermissionsManager.handleAssignPermissions sampleAssignState sampleStore
           none none false).store
         none none false).store =
       (RolePermissionsManager.handleAssignPermissions sampleAssignState sampleStore
         none none false).store)) :=
  ⟨⟨rfl, by decide, by decide, by decide, by decide, by decide, by decide⟩,
    claim_C1_amended sampleAssignState sampleStore ["p2"] rfl
      (by decide) (by decide) (by decide) (by decide) (by decide) (by decide)⟩
